import Mathlib

/-!
Verification of the request-routing and fixture servers of the
`test-servers` repository (`index.js` and `servers.js`).

JavaScript strings are embedded as `List Char` (`JSStr`), so that the
character-level operations of the source (`split('/')`, `join('/')`,
regular-expression tests anchored at the end of the string, template
literals) become structurally recursive Lean functions that the kernel can
evaluate on concrete inputs.
-/

namespace TestServers

/-- A JavaScript string, embedded as its list of characters. -/
abbrev JSStr := List Char

/-- Embeds JS `String.prototype.split(c)` for a one-character separator:
`"".split(c)` is `[""]`, and separators at the ends produce empty pieces,
exactly as in JS. -/
def splitOn (c : Char) : JSStr → List JSStr
  | [] => [[]]
  | a :: rest =>
    let r := splitOn c rest
    if a = c then [] :: r
    else
      match r with
      | [] => [[a]]
      | t :: ts => (a :: t) :: ts

/-- Embeds JS `Array.prototype.join('/')`. -/
def joinSlash : List JSStr → JSStr
  | [] => []
  | [s] => s
  | s :: rest => s ++ '/' :: joinSlash rest

/-- Numeric value of a string of decimal digits (most significant first). -/
def digitsVal (s : JSStr) : Nat :=
  s.foldl (fun n c => 10 * n + (c.toNat - 48)) 0

/-- Embeds JS `parseInt(s, 10)` on the inputs the sources apply it to:
strings beginning with a decimal digit, where it parses the maximal leading
digit run. The value is exact only while it fits a double without rounding
(at most `2 ^ 53`); beyond that JS rounds to the nearest double, which this
model does not reproduce, so every theorem about a hop count carries the
bound `hops ≤ 2 ^ 53`. -/
def parseIntJS (s : JSStr) : Nat :=
  digitsVal (s.takeWhile Char.isDigit)

/-- The character for the decimal digit `d < 10`. -/
def digitChar (d : Nat) : Char := Char.ofNat (48 + d)

/-- Fuel-driven worker for `natToDigits`; the fuel makes the recursion
structural so that concrete runs reduce inside the kernel. -/
def natToDigitsAux : Nat → Nat → JSStr → JSStr
  | 0, _, acc => acc
  | fuel + 1, n, acc =>
    if n < 10 then digitChar n :: acc
    else natToDigitsAux fuel (n / 10) (digitChar (n % 10) :: acc)

/-- Embeds the JS number-to-string conversion performed by template
literals (for a non-negative integer): the canonical decimal numeral. -/
def natToDigits (n : Nat) : JSStr := natToDigitsAux (n + 1) n []

/-- Embeds the test of the regular expression `/\/\d+\/\d{3}$/` used both
by `getTargetURL` and by `createRedirectServer`: the string ends with a
slash, one or more digits, a slash, and exactly three digits. The scan
works from the end of the string: the last three characters are digits,
preceded by a slash, preceded by a nonempty digit run, preceded by a
slash. -/
def matchRedirect (s : JSStr) : Bool :=
  match s.reverse with
  | c1 :: c2 :: c3 :: c4 :: rest =>
    c1.isDigit && c2.isDigit && c3.isDigit && (c4 == '/') &&
    !(rest.takeWhile Char.isDigit).isEmpty &&
    (match rest.dropWhile Char.isDigit with
     | c :: _ => c == '/'
     | [] => false)
  | _ => false

/-- Embeds the test of the regular expression `/^\/bytes\/\d+$/` used by
`getTargetURL`. -/
def matchBytes (s : JSStr) : Bool :=
  ("/bytes/".data).isPrefixOf s && !(s.drop 7).isEmpty && (s.drop 7).all Char.isDigit

/-- Embeds `req.url.replace(/(\?.*)/, '')` from `createHTTPServer`: drop
everything from the first question mark on (URLs contain no newline, so
the dot of the regular expression never stops early). -/
def stripQuery (s : JSStr) : JSStr := s.takeWhile (fun c => c ≠ '?')

/-- The parts of an HTTP response the redirect fixture determines: the
status code passed to `writeHead` (200 by Node's default when only
`res.end()` runs), the `location` header if one is set, and the body. -/
structure HttpResponse where
  status : Nat
  location : Option JSStr
  body : JSStr
deriving DecidableEq, Repr

/-- What a fixture's request handler produces on the wire: a response that
was actually written, or Node's `ERR_HTTP_INVALID_STATUS_CODE` thrown by
`res.writeHead` (carrying the offending parsed status), in which case no
response is sent for that request. -/
inductive HandlerResult where
  | sent (r : HttpResponse)
  | invalidStatus (status : Nat)
deriving DecidableEq, Repr

/-- Embeds `res.writeHead(status, {location})` followed by `res.end()`:
Node validates the status code and throws `ERR_HTTP_INVALID_STATUS_CODE`
when it lies outside 100..999 (lib/_http_server.js), so nothing is written;
otherwise the response goes out with the given status, the location
header, and an empty body. -/
def writeHead (status : Nat) (location : Option JSStr) : HandlerResult :=
  if 100 ≤ status ∧ status ≤ 999 then HandlerResult.sent ⟨status, location, []⟩
  else HandlerResult.invalidStatus status

/-- Embeds the request handler installed by `createRedirectServer`
(servers.js): if the URL fails the `/\/\d+\/\d{3}$/` test the response is a
bare `res.end()` (status 200 by Node's default, no location, empty body);
otherwise the URL is split on `/`, the second-to-last token is `parseInt`ed
as the number of redirects and the last as the response code, and the
handler calls `writeHead` with that code and a `location` built from the
tokens before the numeric pair — which throws, sending nothing, when the
code token parses below 100 (leading zeros). -/
def createRedirectServer (url : JSStr) : HandlerResult :=
  if matchRedirect url then
    let urlTokens := splitOn '/' url
    let numberOfRedirects := parseIntJS (urlTokens.getD (urlTokens.length - 2) [])
    let responseCode := parseIntJS (urlTokens.getD (urlTokens.length - 1) [])
    let redirectURL :=
      if 1 < numberOfRedirects then
        joinSlash (urlTokens.dropLast.dropLast) ++
          '/' :: natToDigits (numberOfRedirects - 1) ++ '/' :: natToDigits responseCode
      else
        joinSlash (urlTokens.dropLast.dropLast) ++ ['/']
    writeHead responseCode (some redirectURL)
  else
    HandlerResult.sent ⟨200, none, []⟩

/-- The parts of a response of the bytes fixture: status code and body
size in bytes (`Buffer.alloc(bytes)` is a body of `bytes` zero bytes). -/
structure BytesResponse where
  status : Nat
  bodyBytes : Nat
deriving DecidableEq, Repr

/-- Embeds JS `Number(s)` on the fragment the bytes fixture exercises:
the empty string is `0`, a string of decimal digits is its value (within
double precision), and a string containing any character that can occur in
no numeric literal is `NaN` (`none`). Numeric forms outside this fragment
(signs, decimals, exponents, hex/octal/binary prefixes, `Infinity`,
surrounding whitespace) are not modelled; theorems stay inside the
fragment via their hypotheses. -/
def jsNumber (s : JSStr) : Option Nat :=
  if s = [] then some 0
  else if s.all Char.isDigit then some (digitsVal s)
  else none

/-- Characters that can occur in some string `Number` maps to a non-`NaN`
value: digits, whitespace, non-ASCII characters (conservatively), sign and
radix-prefix and exponent characters, hexadecimal letters, and the letters
of `Infinity`. A string containing an ASCII character outside this set is
`NaN` under `Number`. -/
def jsNumericChar (c : Char) : Bool :=
  c.isDigit || c.isWhitespace || 128 ≤ c.toNat ||
  c ∈ ['.', 'x', 'X', 'o', 'O', 'b', 'B', 'e', 'E', '+', '-',
       'I', 'n', 'f', 'i', 't', 'y', 'a', 'A', 'c', 'C', 'd', 'D', 'F']

/-- Embeds the request handler installed by `createBytesServer`
(servers.js): split the URL on `/`, convert the last token with
`Number(...) || 0` (so `NaN` degrades to `0`), and respond 200 with that
many zero bytes. -/
def createBytesServer (url : JSStr) : BytesResponse :=
  let path := splitOn '/' url
  let bytes := (jsNumber (path.getD (path.length - 1) [])).getD 0
  ⟨200, bytes⟩

/-- The own keys of the `SERVERS` table of `index.js` at steady state: the
four fixtures of the object literal plus `ssl_renegotiation`, assigned at
startup (`SERVERS.ssl_renegotiation = ...` at index.js line 91). -/
inductive Fixture where
  | raw
  | bytes
  | redirect
  | graphql
  | sslRenegotiation
deriving DecidableEq, Repr

/-- The `SERVERS` table: for each own key, its server's `url` property —
`some` once the listener has bound (`server.url` is set on `listening`),
`none` while it is still `undefined`. -/
structure Servers where
  raw : Option JSStr
  bytes : Option JSStr
  redirect : Option JSStr
  graphql : Option JSStr
  ssl_renegotiation : Option JSStr
deriving DecidableEq, Repr

/-- The own key of `SERVERS` a header value names, if any. -/
def fixtureOfName (name : JSStr) : Option Fixture :=
  if name = "raw".data then some .raw
  else if name = "bytes".data then some .bytes
  else if name = "redirect".data then some .redirect
  else if name = "graphql".data then some .graphql
  else if name = "ssl_renegotiation".data then some .sslRenegotiation
  else none

/-- The `url` property of a fixture's server object. -/
def fixtureURL (sv : Servers) : Fixture → Option JSStr
  | .raw => sv.raw
  | .bytes => sv.bytes
  | .redirect => sv.redirect
  | .graphql => sv.graphql
  | .sslRenegotiation => sv.ssl_renegotiation

/-- The property names every plain JavaScript object inherits from
`Object.prototype`. Each is bound to a function or object — truthy — and
none of those values has a `url` property. -/
def objectPrototypeProps : List JSStr :=
  ["constructor".data, "hasOwnProperty".data, "isPrototypeOf".data,
   "propertyIsEnumerable".data, "toLocaleString".data, "toString".data,
   "valueOf".data, "__defineGetter__".data, "__defineSetter__".data,
   "__lookupGetter__".data, "__lookupSetter__".data, "__proto__".data]

/-- Embeds `SERVERS[name]`, prototype chain included: an own key yields
`some` that server's `url` slot (the object is truthy even before its
`url` is set); a name inherited from `Object.prototype` yields `some none`
— a truthy value whose `url` is `undefined`; any other name yields `none`
(`SERVERS[name]` is `undefined`). -/
def serversLookup (sv : Servers) (name : JSStr) : Option (Option JSStr) :=
  match fixtureOfName name with
  | some f => some (fixtureURL sv f)
  | none => if name ∈ objectPrototypeProps then some none else none

/-- Embeds `getTargetURL` (index.js): if the `target-server` header names a
registered fixture, return that fixture's `url` (possibly `undefined` —
`none` — with no fall-through, mirroring `if (target) return target.url`);
otherwise apply the path heuristics in source order to the raw `req.url`.
The result is the target base URL, or `none` when the function returns
`undefined`. -/
def getTargetURL (sv : Servers) (targetServerHeader : Option JSStr) (url : JSStr) :
    Option JSStr :=
  match targetServerHeader.bind (serversLookup sv) with
  | some u => u
  | none =>
    if url = "/raw".data ∨ ("/raw/".data).isPrefixOf url then sv.raw
    else if url = "/graphql".data then sv.graphql
    else if matchRedirect url then sv.redirect
    else if matchBytes url then sv.bytes
    else none

/-- An inbound request as the router sees it: raw URL, method, and the
header map Node delivers (keys already lowercased). -/
structure Request where
  url : JSStr
  method : JSStr
  headers : List (JSStr × JSStr)
deriving DecidableEq, Repr

/-- Embeds `req.headers[k]`: the first entry with the given key. -/
def headerGet (hs : List (JSStr × JSStr)) (k : JSStr) : Option JSStr :=
  (hs.find? (fun p => p.1 = k)).map Prod.snd

/-- What the router does with a request: forward it to a target base URL
through the proxy, or answer it directly with a status, a content type,
and the diagnostic JSON object `{url, method, headers}`. -/
inductive RouterResult where
  | proxied (target : JSStr)
  | echoed (status : Nat) (contentType : JSStr) (url : JSStr) (method : JSStr)
      (headers : List (JSStr × JSStr))
deriving DecidableEq, Repr

/-- Embeds `responseHandler` (index.js): ask `getTargetURL` for a target;
if one came back, `proxy.web` the request there; otherwise write status
200 with `content-type: application/json` and the JSON serialization of
`{url: req.url, method: req.method, headers: req.headers}`. -/
def responseHandler (sv : Servers) (req : Request) : RouterResult :=
  match getTargetURL sv (headerGet req.headers ("target-server".data)) req.url with
  | some t => .proxied t
  | none => .echoed 200 ("application/json".data) req.url req.method req.headers

/-- A concrete `SERVERS` table with every listener bound, as after startup
(raw at its fixed port 8082, ssl_renegotiation at its fixed port 9091, the
others at ephemeral ports). -/
def servers0 : Servers :=
  ⟨some ("http://localhost:8082".data), some ("http://localhost:3001".data),
   some ("http://localhost:3002".data), some ("http://localhost:3003".data),
   some ("https://localhost:9091".data)⟩

/-- The spec-side redirect-path grammar, written from the spec's words:
the path decomposes as `<prefix>/<hops>/<code>` with `hops` one or more
digits and `code` exactly three digits, both anchored at the end. -/
def RedirectShape (s : JSStr) : Prop :=
  ∃ a h c, s = a ++ '/' :: h ++ '/' :: c ∧ h ≠ [] ∧ (∀ ch ∈ h, ch.isDigit) ∧
    c.length = 3 ∧ (∀ ch ∈ c, ch.isDigit)

/-- A concrete request carrying a `target-server: graphql` header while its
path points at the raw fixture. -/
def req0 : Request :=
  ⟨"/raw".data, "GET".data, [("target-server".data, "graphql".data)]⟩

/-- A concrete request matching no heuristic and carrying no override. -/
def req1 : Request := ⟨"/zzz".data, "GET".data, []⟩

/-- A concrete request whose `target-server` header names the raw fixture. -/
def req2 : Request :=
  ⟨"/zzz".data, "GET".data, [("target-server".data, "raw".data)]⟩

/-- A `SERVERS` table before any listener has bound: every `url` is still
`undefined`. -/
def svUnbound : Servers := ⟨none, none, none, none, none⟩

/-! ## Lemmas about digits and numerals -/

theorem digitChar_isDigit {d : Nat} (hd : d < 10) : (digitChar d).isDigit = true := by
  interval_cases d <;> decide

theorem digitChar_ne_slash {d : Nat} (hd : d < 10) : digitChar d ≠ '/' := by
  interval_cases d <;> decide

theorem digitChar_toNat {d : Nat} (hd : d < 10) : (digitChar d).toNat - 48 = d := by
  interval_cases d <;> decide

theorem natToDigitsAux_append (fuel : Nat) :
    ∀ n acc, natToDigitsAux fuel n acc = natToDigitsAux fuel n [] ++ acc := by
  induction fuel with
  | zero => intro n acc; simp [natToDigitsAux]
  | succ fuel ih =>
    intro n acc
    by_cases h : n < 10
    · simp [natToDigitsAux, h]
    · simp only [natToDigitsAux, if_neg h]
      rw [ih (n / 10) (digitChar (n % 10) :: acc), ih (n / 10) [digitChar (n % 10)]]
      simp

theorem natToDigitsAux_fuel (n : Nat) :
    ∀ f1 f2, 0 < f1 → 0 < f2 → n < 10 ^ f1 → n < 10 ^ f2 →
      natToDigitsAux f1 n [] = natToDigitsAux f2 n [] := by
  induction n using Nat.strong_induction_on with
  | _ n ih =>
    intro f1 f2 h1 h2 hn1 hn2
    obtain ⟨g1, rfl⟩ := Nat.exists_eq_succ_of_ne_zero (Nat.pos_iff_ne_zero.mp h1)
    obtain ⟨g2, rfl⟩ := Nat.exists_eq_succ_of_ne_zero (Nat.pos_iff_ne_zero.mp h2)
    by_cases h : n < 10
    · simp [natToDigitsAux, h]
    · have hg1 : 0 < g1 := by
        rcases Nat.eq_zero_or_pos g1 with hg | hg
        · subst hg; simp at hn1; omega
        · exact hg
      have hg2 : 0 < g2 := by
        rcases Nat.eq_zero_or_pos g2 with hg | hg
        · subst hg; simp at hn2; omega
        · exact hg
      have hd1 : n / 10 < 10 ^ g1 := by
        rw [Nat.div_lt_iff_lt_mul (by norm_num)]
        calc n < 10 ^ (g1 + 1) := hn1
          _ = 10 ^ g1 * 10 := by rw [pow_succ]
      have hd2 : n / 10 < 10 ^ g2 := by
        rw [Nat.div_lt_iff_lt_mul (by norm_num)]
        calc n < 10 ^ (g2 + 1) := hn2
          _ = 10 ^ g2 * 10 := by rw [pow_succ]
      simp only [natToDigitsAux, if_neg h]
      rw [natToDigitsAux_append g1, natToDigitsAux_append g2,
        ih (n / 10) (Nat.div_lt_self (by omega) (by norm_num)) g1 g2 hg1 hg2 hd1 hd2]

theorem natToDigits_lt {n : Nat} (h : n < 10) : natToDigits n = [digitChar n] := by
  simp [natToDigits, natToDigitsAux, h]

theorem natToDigits_ge {n : Nat} (h : 10 ≤ n) :
    natToDigits n = natToDigits (n / 10) ++ [digitChar (n % 10)] := by
  have h1 : natToDigits n = natToDigitsAux n (n / 10) [digitChar (n % 10)] := by
    simp only [natToDigits, natToDigitsAux, if_neg (by omega : ¬ n < 10)]
  rw [h1, natToDigitsAux_append]
  congr 1
  apply natToDigitsAux_fuel
  · omega
  · omega
  · calc n / 10 < n := Nat.div_lt_self (by omega) (by norm_num)
      _ < 10 ^ n := Nat.lt_pow_self (by norm_num) n
  · calc n / 10 < 10 ^ (n / 10) := Nat.lt_pow_self (by norm_num) _
      _ ≤ 10 ^ (n / 10 + 1) := Nat.pow_le_pow_right (by norm_num) (by omega)

theorem natToDigits_all_digits (n : Nat) : ∀ c ∈ natToDigits n, c.isDigit = true := by
  induction n using Nat.strong_induction_on with
  | _ n ih =>
    by_cases h : n < 10
    · rw [natToDigits_lt h]
      intro c hc
      simp at hc
      subst hc
      exact digitChar_isDigit h
    · rw [natToDigits_ge (by omega)]
      intro c hc
      rcases List.mem_append.mp hc with hc | hc
      · exact ih (n / 10) (Nat.div_lt_self (by omega) (by norm_num)) c hc
      · simp at hc
        subst hc
        exact digitChar_isDigit (Nat.mod_lt _ (by norm_num))

theorem natToDigits_ne_nil (n : Nat) : natToDigits n ≠ [] := by
  by_cases h : n < 10
  · rw [natToDigits_lt h]; simp
  · rw [natToDigits_ge (by omega)]; simp

theorem natToDigits_no_slash (n : Nat) : ∀ c ∈ natToDigits n, c ≠ '/' := by
  intro c hc
  have := natToDigits_all_digits n c hc
  intro hcontra
  subst hcontra
  simp at this

theorem digitsVal_concat (s : JSStr) (c : Char) :
    digitsVal (s ++ [c]) = 10 * digitsVal s + (c.toNat - 48) := by
  simp [digitsVal, List.foldl_append]

theorem digitsVal_natToDigits (n : Nat) : digitsVal (natToDigits n) = n := by
  induction n using Nat.strong_induction_on with
  | _ n ih =>
    by_cases h : n < 10
    · rw [natToDigits_lt h]
      have : digitsVal [digitChar n] = (digitChar n).toNat - 48 := by
        simp [digitsVal]
      rw [this, digitChar_toNat h]
    · rw [natToDigits_ge (by omega), digitsVal_concat,
        ih (n / 10) (Nat.div_lt_self (by omega) (by norm_num)),
        digitChar_toNat (Nat.mod_lt _ (by norm_num))]
      omega

theorem parseIntJS_natToDigits (n : Nat) : parseIntJS (natToDigits n) = n := by
  unfold parseIntJS
  rw [List.takeWhile_eq_self_iff.mpr (natToDigits_all_digits n), digitsVal_natToDigits]

theorem natToDigits_length_three {n : Nat} (h1 : 100 ≤ n) (h2 : n ≤ 999) :
    (natToDigits n).length = 3 := by
  rw [natToDigits_ge (by omega), natToDigits_ge (by omega : 10 ≤ n / 10),
    Nat.div_div_eq_div_mul, natToDigits_lt (by omega : n / (10 * 10) < 10)]
  simp

/-! ## Lemmas about takeWhile, dropWhile, split and join -/

theorem takeWhile_append_of {p : Char → Bool} {l : JSStr} {x : Char} (t : JSStr)
    (hl : ∀ a ∈ l, p a = true) (hx : p x = false) :
    (l ++ x :: t).takeWhile p = l := by
  induction l with
  | nil => simp [List.takeWhile, hx]
  | cons a l ih =>
    have ha : p a = true := hl a (by simp)
    simp only [List.cons_append, List.takeWhile, ha, List.append_eq]
    rw [ih (fun b hb => hl b (by simp [hb]))]

theorem dropWhile_append_of {p : Char → Bool} {l : JSStr} {x : Char} (t : JSStr)
    (hl : ∀ a ∈ l, p a = true) (hx : p x = false) :
    (l ++ x :: t).dropWhile p = x :: t := by
  induction l with
  | nil => simp [List.dropWhile, hx]
  | cons a l ih =>
    have ha : p a = true := hl a (by simp)
    simp only [List.cons_append, List.dropWhile, ha, List.append_eq]
    exact ih (fun b hb => hl b (by simp [hb]))

theorem splitOn_ne_nil (c : Char) (s : JSStr) : splitOn c s ≠ [] := by
  induction s with
  | nil => simp [splitOn]
  | cons a rest ih =>
    simp only [splitOn]
    by_cases h : a = c
    · simp [h]
    · simp only [if_neg h]
      cases hr : splitOn c rest with
      | nil => simp
      | cons t ts => simp

theorem splitOn_no_sep {c : Char} {s : JSStr} (h : ∀ ch ∈ s, ch ≠ c) :
    splitOn c s = [s] := by
  induction s with
  | nil => rfl
  | cons a rest ih =>
    have ha : a ≠ c := h a (by simp)
    simp only [splitOn, if_neg ha]
    rw [ih (fun ch hch => h ch (by simp [hch]))]

theorem splitOn_append {c : Char} {s : JSStr} (t : JSStr) (h : ∀ ch ∈ s, ch ≠ c) :
    splitOn c (s ++ c :: t) = s :: splitOn c t := by
  induction s with
  | nil => simp [splitOn]
  | cons a rest ih =>
    have ha : a ≠ c := h a (by simp)
    simp only [List.cons_append, splitOn, if_neg ha, List.append_eq]
    rw [ih (fun ch hch => h ch (by simp [hch]))]

theorem joinSlash_cons {l : List JSStr} (s : JSStr) (h : l ≠ []) :
    joinSlash (s :: l) = s ++ '/' :: joinSlash l := by
  cases l with
  | nil => exact absurd rfl h
  | cons t ts => rfl

theorem joinSlash_concat {l : List JSStr} (x : JSStr) (h : l ≠ []) :
    joinSlash (l ++ [x]) = joinSlash l ++ '/' :: x := by
  induction l with
  | nil => exact absurd rfl h
  | cons s l ih =>
    cases l with
    | nil => rfl
    | cons t ts =>
      rw [List.cons_append, joinSlash_cons s (by simp), joinSlash_cons s (by simp),
        ih (by simp)]
      simp

theorem splitOn_joinSlash : ∀ l : List JSStr, l ≠ [] →
    (∀ s ∈ l, ∀ ch ∈ s, ch ≠ '/') → splitOn '/' (joinSlash l) = l := by
  intro l
  induction l with
  | nil => intro h; exact absurd rfl h
  | cons s l ih =>
    intro _ hfree
    cases l with
    | nil => exact splitOn_no_sep (hfree s (by simp))
    | cons t ts =>
      rw [joinSlash_cons s (by simp), splitOn_append _ (hfree s (by simp)),
        ih (by simp) (fun u hu => hfree u (by simp [hu]))]

theorem getD_append_length {α : Type} (d x : α) :
    ∀ (L rest : List α), (L ++ x :: rest).getD L.length d = x := by
  intro L
  induction L with
  | nil => intro rest; rfl
  | cons a L ih =>
    intro rest
    simpa [List.getD_cons_succ] using ih rest

/-! ## The regular expression versus the spec-side grammar -/

theorem matchRedirect_cons (c1 c2 c3 c4 : Char) (rest : JSStr) (s : JSStr)
    (hrev : s.reverse = c1 :: c2 :: c3 :: c4 :: rest) :
    matchRedirect s =
      (c1.isDigit && c2.isDigit && c3.isDigit && (c4 == '/') &&
       !(rest.takeWhile Char.isDigit).isEmpty &&
       (match rest.dropWhile Char.isDigit with
        | c :: _ => c == '/'
        | [] => false)) := by
  unfold matchRedirect
  rw [hrev]

theorem matchRedirect_of_shape {s : JSStr} (hs : RedirectShape s) :
    matchRedirect s = true := by
  obtain ⟨a, h, c, rfl, hne, hdig, hlen, hcdig⟩ := hs
  obtain ⟨x, y, z, rfl⟩ := List.length_eq_three.mp hlen
  rw [matchRedirect_cons z y x '/' (h.reverse ++ '/' :: a.reverse) _ (by simp)]
  rw [takeWhile_append_of a.reverse (fun b hb => hdig b (List.mem_reverse.mp hb)) (by decide),
    dropWhile_append_of a.reverse (fun b hb => hdig b (List.mem_reverse.mp hb)) (by decide)]
  simp [hcdig x (by simp), hcdig y (by simp), hcdig z (by simp), hne]

theorem shape_of_matchRedirect {s : JSStr} (hm : matchRedirect s = true) :
    RedirectShape s := by
  have hshort : ∀ r : JSStr, s.reverse = r → r.length < 4 → False := by
    intro r hr hlen
    unfold matchRedirect at hm
    rw [hr] at hm
    rcases r with _ | ⟨a1, _ | ⟨a2, _ | ⟨a3, _ | ⟨a4, t⟩⟩⟩⟩
    · simp at hm
    · simp at hm
    · simp at hm
    · simp at hm
    · simp only [List.length_cons] at hlen
      omega
  rcases hrev : s.reverse with _ | ⟨c1, _ | ⟨c2, _ | ⟨c3, _ | ⟨c4, rest⟩⟩⟩⟩
  · exact (hshort _ hrev (by simp)).elim
  · exact (hshort _ hrev (by simp)).elim
  · exact (hshort _ hrev (by simp)).elim
  · exact (hshort _ hrev (by simp)).elim
  rw [matchRedirect_cons c1 c2 c3 c4 rest s hrev] at hm
  simp only [Bool.and_eq_true, beq_iff_eq, Bool.not_eq_true'] at hm
  obtain ⟨⟨⟨⟨⟨h1, h2⟩, h3⟩, hc4⟩, hrun⟩, hmatch2⟩ := hm
  cases hdrop : rest.dropWhile Char.isDigit with
  | nil => rw [hdrop] at hmatch2; simp at hmatch2
  | cons c tl =>
    rw [hdrop] at hmatch2
    simp at hmatch2
    subst hmatch2
    subst hc4
    have hsplit : rest.takeWhile Char.isDigit ++ '/' :: tl = rest := by
      have := List.takeWhile_append_dropWhile (p := Char.isDigit) (l := rest)
      rw [hdrop] at this
      exact this
    have hs2 : s = tl.reverse ++ '/' :: (rest.takeWhile Char.isDigit).reverse ++
        '/' :: [c3, c2, c1] := by
      have hrr := congrArg List.reverse hrev
      rw [List.reverse_reverse] at hrr
      rw [hrr]
      conv_lhs => rw [← hsplit]
      simp
    refine ⟨tl.reverse, (rest.takeWhile Char.isDigit).reverse, [c3, c2, c1], hs2, ?_, ?_, rfl, ?_⟩
    · simp only [ne_eq, List.reverse_eq_nil_iff]
      intro hcontra
      rw [hcontra] at hrun
      simp at hrun
    · intro ch hch
      exact List.mem_takeWhile_imp (List.mem_reverse.mp hch)
    · intro ch hch
      simp only [List.mem_cons, List.not_mem_nil, or_false] at hch
      rcases hch with rfl | rfl | rfl
      · exact h3
      · exact h2
      · exact h1

theorem matchRedirect_iff {s : JSStr} : matchRedirect s = true ↔ RedirectShape s :=
  ⟨shape_of_matchRedirect, matchRedirect_of_shape⟩

/-! ## Computation of the redirect handler on a well-formed path -/

theorem writeHead_sent_location {status : Nat} {loc : Option JSStr} {r : HttpResponse}
    (h : writeHead status loc = HandlerResult.sent r) : r.location = loc := by
  unfold writeHead at h
  split at h
  · injection h with h2
    rw [← h2]
  · exact absurd h (by simp)

theorem dropLast_two_append {α : Type} (L : List α) (x y : α) :
    (L ++ [x, y]).dropLast.dropLast = L := by
  have h1 : L ++ [x, y] = (L ++ [x]) ++ [y] := by simp
  rw [h1, List.dropLast_concat, List.dropLast_concat]

theorem createRedirectServer_tokens (L : List JSStr) (dh dc : JSStr)
    (hL : L ≠ []) (hLfree : ∀ s ∈ L, ∀ ch ∈ s, ch ≠ '/')
    (hdh : dh ≠ []) (hdhd : ∀ ch ∈ dh, ch.isDigit = true)
    (hdc3 : dc.length = 3) (hdcd : ∀ ch ∈ dc, ch.isDigit = true) :
    createRedirectServer (joinSlash (L ++ [dh, dc])) =
      writeHead (digitsVal dc)
        (some (if 1 < digitsVal dh then
          joinSlash L ++ '/' :: natToDigits (digitsVal dh - 1) ++
            '/' :: natToDigits (digitsVal dc)
        else
          joinSlash L ++ ['/'])) := by
  have hdh_slash : ∀ ch ∈ dh, ch ≠ '/' := by
    intro ch hch hc
    have := hdhd ch hch
    rw [hc] at this
    simp at this
  have hdc_slash : ∀ ch ∈ dc, ch ≠ '/' := by
    intro ch hch hc
    have := hdcd ch hch
    rw [hc] at this
    simp at this
  have hurl : joinSlash (L ++ [dh, dc]) = joinSlash L ++ '/' :: dh ++ '/' :: dc := by
    rw [show L ++ [dh, dc] = (L ++ [dh]) ++ [dc] by simp,
      joinSlash_concat _ (by simp [hL]), joinSlash_concat _ hL]
  have hmatch : matchRedirect (joinSlash (L ++ [dh, dc])) = true := by
    rw [hurl]
    exact matchRedirect_of_shape ⟨joinSlash L, dh, dc, rfl, hdh, hdhd, hdc3, hdcd⟩
  have hsplit : splitOn '/' (joinSlash (L ++ [dh, dc])) = L ++ [dh, dc] := by
    apply splitOn_joinSlash
    · simp [hL]
    · intro u hu
      rcases List.mem_append.mp hu with h | h
      · exact hLfree u h
      · simp only [List.mem_cons, List.not_mem_nil, or_false] at h
        rcases h with rfl | rfl
        · exact hdh_slash
        · exact hdc_slash
  have hlen : (L ++ [dh, dc]).length = L.length + 2 := by simp
  have hget2 : (L ++ [dh, dc]).getD ((L ++ [dh, dc]).length - 2) [] = dh := by
    rw [hlen, show L.length + 2 - 2 = L.length from by omega, getD_append_length]
  have hget1 : (L ++ [dh, dc]).getD ((L ++ [dh, dc]).length - 1) [] = dc := by
    rw [hlen, show L ++ [dh, dc] = (L ++ [dh]) ++ dc :: [] from by simp,
      show L.length + 2 - 1 = (L ++ [dh]).length from by simp, getD_append_length]
  have hpdh : parseIntJS dh = digitsVal dh := by
    unfold parseIntJS
    rw [List.takeWhile_eq_self_iff.mpr hdhd]
  have hpdc : parseIntJS dc = digitsVal dc := by
    unfold parseIntJS
    rw [List.takeWhile_eq_self_iff.mpr hdcd]
  simp only [createRedirectServer, hmatch, if_true, hsplit, hget2, hget1, hpdh, hpdc,
    dropLast_two_append]

/-! ## The claims -/

/-- Claim C1 counterexample: the path `/x/2/099` matches the claimed
pattern (`099` is a three-digit code token), but no response with that
status exists: `parseInt("099") = 99` and Node's `writeHead` throws
`ERR_HTTP_INVALID_STATUS_CODE` for a status below 100, so nothing is
sent. -/
theorem claim1_counterexample :
    matchRedirect ("/x/2/099".data) = true ∧
    createRedirectServer ("/x/2/099".data) = HandlerResult.invalidStatus 99 := by decide

/-- Claim C1 as amended: for every request to the redirect fixture whose
path is `/<prefix...>/<h>/<code>` with prefix segments slash-free, `h` a
canonical decimal numeral no larger than `2 ^ 53` (where JS `parseInt` is
exact), and `code` a three-digit token parsing to a valid status
(100..999, i.e. no leading zero), the sent response's status equals `code`
and its location header is `<prefix...>/<h-1>/<code>` when `h > 1` and
`<prefix...>/` (just `/` for an empty prefix) when `h ≤ 1`. -/
theorem claim1_redirect_protocol (pfxSegs : List JSStr) (h code : Nat)
    (hpfx : ∀ seg ∈ pfxSegs, ∀ ch ∈ seg, ch ≠ '/')
    (_hdbl : h ≤ 9007199254740992)
    (hlo : 100 ≤ code) (hhi : code ≤ 999) :
    createRedirectServer
        (joinSlash ([] :: pfxSegs) ++ '/' :: natToDigits h ++ '/' :: natToDigits code) =
      HandlerResult.sent
        (if 1 < h then
          ⟨code, some (joinSlash ([] :: pfxSegs) ++ '/' :: natToDigits (h - 1) ++
            '/' :: natToDigits code), []⟩
        else
          ⟨code, some (joinSlash ([] :: pfxSegs) ++ ['/']), []⟩) := by
  have hfree : ∀ s ∈ ([] :: pfxSegs : List JSStr), ∀ ch ∈ s, ch ≠ '/' := by
    intro s hs
    rcases List.mem_cons.mp hs with rfl | hs
    · intro ch hch
      simp at hch
    · exact hpfx s hs
  have hurl : joinSlash ([] :: pfxSegs) ++ '/' :: natToDigits h ++ '/' :: natToDigits code
      = joinSlash (([] :: pfxSegs) ++ [natToDigits h, natToDigits code]) := by
    rw [show ([] :: pfxSegs) ++ [natToDigits h, natToDigits code]
        = (([] :: pfxSegs) ++ [natToDigits h]) ++ [natToDigits code] by simp,
      joinSlash_concat _ (by simp), joinSlash_concat _ (by simp)]
  rw [hurl, createRedirectServer_tokens ([] :: pfxSegs) (natToDigits h) (natToDigits code)
    (by simp) hfree (natToDigits_ne_nil h) (natToDigits_all_digits h)
    (natToDigits_length_three hlo hhi) (natToDigits_all_digits code),
    digitsVal_natToDigits, digitsVal_natToDigits]
  unfold writeHead
  rw [if_pos ⟨hlo, hhi⟩]
  by_cases hv : 1 < h
  · rw [if_pos hv, if_pos hv]
  · rw [if_neg hv, if_neg hv]

/-- Witness for the amended C1 at prefix `["a"]`, five hops, status 302. -/
theorem claim1_witness :
    createRedirectServer ("/a/5/302".data)
      = HandlerResult.sent ⟨302, some ("/a/4/302".data), []⟩ := by
  have h := claim1_redirect_protocol ["a".data] 5 302 (by decide) (by norm_num)
    (by decide) (by decide)
  have e1 : joinSlash ([] :: ["a".data]) ++ '/' :: natToDigits 5 ++ '/' :: natToDigits 302
      = "/a/5/302".data := by decide
  have e2 : joinSlash ([] :: ["a".data]) ++ '/' :: natToDigits (5 - 1) ++ '/' :: natToDigits 302
      = "/a/4/302".data := by decide
  rw [e1, e2, if_pos (by norm_num)] at h
  exact h

/-- Claim C2: a `target-server` header naming a registered fixture routes
the request to that fixture regardless of the path: classification returns
the fixture's URL and the router proxies there. -/
theorem claim2_header_override (sv : Servers) (req : Request) (name : JSStr)
    (f : Fixture) (u : JSStr)
    (hhdr : headerGet req.headers ("target-server".data) = some name)
    (hname : fixtureOfName name = some f)
    (hurl : fixtureURL sv f = some u) :
    getTargetURL sv (some name) req.url = some u ∧
    responseHandler sv req = RouterResult.proxied u := by
  have hg : getTargetURL sv (some name) req.url = some u := by
    simp [getTargetURL, serversLookup, hname, hurl]
  refine ⟨hg, ?_⟩
  unfold responseHandler
  rw [hhdr, hg]

/-- Witness for C2: header `graphql` on path `/raw` goes to graphql. -/
theorem claim2_witness :
    getTargetURL servers0 (some ("graphql".data)) req0.url
      = some ("http://localhost:3003".data) ∧
    responseHandler servers0 req0 = RouterResult.proxied ("http://localhost:3003".data) :=
  claim2_header_override servers0 req0 ("graphql".data) Fixture.graphql
    ("http://localhost:3003".data) (by decide) (by decide) (by decide)

/-- Claim C3 counterexample: `/5/301?x=1` has a query-stripped form that
matches the redirect pattern, yet classification (with every fixture
bound and no override header) returns no target at all — the claim's
promised redirect classification does not happen, because `getTargetURL`
never strips the query string. -/
theorem claim3_counterexample :
    matchRedirect (stripQuery ("/5/301?x=1".data)) = true ∧
    getTargetURL servers0 none ("/5/301?x=1".data) = none := by decide

/-- Claim C3 as amended: classification applies the heuristics to the raw
URL, query string included; whenever the raw URL ends with
`/<digits>/<three digits>` (even inside the query) and the raw/graphql
heuristics do not fire, the request is classified as redirect. -/
theorem claim3_amended (sv : Servers) (url : JSStr)
    (hraw : ¬ (url = "/raw".data ∨ ("/raw/".data).isPrefixOf url = true))
    (hgq : url ≠ "/graphql".data)
    (hm : matchRedirect url = true) :
    getTargetURL sv none url = sv.redirect := by
  simp only [getTargetURL, Option.none_bind]
  rw [if_neg hraw, if_neg hgq, if_pos hm]

/-- Witness for the amended C3: a URL whose redirect suffix sits inside
the query string is still classified as redirect. -/
theorem claim3_amended_witness :
    getTargetURL servers0 none ("/foo?q=1/5/301".data) = servers0.redirect :=
  claim3_amended servers0 ("/foo?q=1/5/301".data) (by decide) (by decide) (by decide)

/-- Claim C4: a request to the redirect fixture whose path does not match
`/<prefix...>/<hops>/<code>` gets status 200 with an empty body and no
location header, never a 4xx. -/
theorem claim4_malformed_terminal (url : JSStr) (hno : ¬ RedirectShape url) :
    createRedirectServer url = HandlerResult.sent ⟨200, none, []⟩ ∧
    ∀ r, createRedirectServer url = HandlerResult.sent r →
      ¬ (400 ≤ r.status ∧ r.status ≤ 499) := by
  have hm : matchRedirect url = false := by
    by_contra hb
    simp only [Bool.not_eq_false] at hb
    exact hno (shape_of_matchRedirect hb)
  have h1 : createRedirectServer url = HandlerResult.sent ⟨200, none, []⟩ := by
    simp [createRedirectServer, hm]
  refine ⟨h1, ?_⟩
  intro r hr
  rw [h1] at hr
  injection hr with h2
  subst h2
  decide

/-- Witness for C4 at the malformed path `/foo`. -/
theorem claim4_witness :
    ¬ RedirectShape ("/foo".data) ∧
    createRedirectServer ("/foo".data) = HandlerResult.sent ⟨200, none, []⟩ := by
  have hns : ¬ RedirectShape ("/foo".data) := fun hs =>
    absurd (matchRedirect_of_shape hs) (by decide)
  exact ⟨hns, (claim4_malformed_terminal _ hns).1⟩

/-- Claim C5: the countdown chain from `/a/b/5/301`: five successive
redirect responses with status 301, each location feeding the next
request, ending at location `/a/b/`, which then answers 200 with an empty
body. -/
theorem claim5_countdown_chain :
    createRedirectServer ("/a/b/5/301".data)
      = HandlerResult.sent ⟨301, some ("/a/b/4/301".data), []⟩ ∧
    createRedirectServer ("/a/b/4/301".data)
      = HandlerResult.sent ⟨301, some ("/a/b/3/301".data), []⟩ ∧
    createRedirectServer ("/a/b/3/301".data)
      = HandlerResult.sent ⟨301, some ("/a/b/2/301".data), []⟩ ∧
    createRedirectServer ("/a/b/2/301".data)
      = HandlerResult.sent ⟨301, some ("/a/b/1/301".data), []⟩ ∧
    createRedirectServer ("/a/b/1/301".data)
      = HandlerResult.sent ⟨301, some ("/a/b/".data), []⟩ ∧
    createRedirectServer ("/a/b/".data) = HandlerResult.sent ⟨200, none, []⟩ := by decide

/-- Claim C6 counterexample: `/x/0/301` holds `0` in the hops position —
a value that does not satisfy `hopsRemaining ≥ 1` — yet the fixture does
not answer with the terminal response: it sends a redirect response,
status 301 with a `location: /x/` header. -/
theorem claim6_counterexample :
    createRedirectServer ("/x/0/301".data)
      = HandlerResult.sent ⟨301, some ("/x/".data), []⟩ ∧
    createRedirectServer ("/x/0/301".data) ≠ HandlerResult.sent ⟨200, none, []⟩ := by decide

/-- Claim C6 as amended: a path is recognized as a redirect request iff it
ends with `/<one or more digits>/<exactly three digits>` — the numeric
value of the hops token may be 0, so `hopsRemaining ≥ 1` is not required.
Unrecognized paths get the terminal empty 200; a recognized path is never
answered with the terminal response — the handler calls `writeHead` with
the parsed code and a location header, so any response it sends carries a
location (and when the code token parses below 100, `writeHead` throws and
nothing is sent at all). -/
theorem claim6_amended (url : JSStr) :
    (matchRedirect url = true ↔ RedirectShape url) ∧
    (matchRedirect url = false →
      createRedirectServer url = HandlerResult.sent ⟨200, none, []⟩) ∧
    (matchRedirect url = true →
      ∀ r, createRedirectServer url = HandlerResult.sent r → r.location.isSome = true) := by
  refine ⟨matchRedirect_iff, ?_, ?_⟩
  · intro hm
    simp [createRedirectServer, hm]
  · intro hm r hr
    simp only [createRedirectServer, hm, if_true] at hr
    rw [writeHead_sent_location hr]
    rfl

/-- Witness for the amended C6 at the recognized path `/x/0/301`. -/
theorem claim6_amended_witness :
    matchRedirect ("/x/0/301".data) = true ∧
    (∀ r, createRedirectServer ("/x/0/301".data) = HandlerResult.sent r →
      r.location.isSome = true) :=
  ⟨by decide, (claim6_amended ("/x/0/301".data)).2.2 (by decide)⟩

/-- Claim C7 counterexample: the header value `constructor` is not one of
the registered fixture names, yet it is not ignored — `SERVERS.constructor`
is the inherited `Object.prototype.constructor`, truthy with an undefined
`url`, so classification returns no target (the request echoes) instead of
applying the path heuristic that would route `/raw` to the raw fixture.
And `ssl_renegotiation` is a fifth own key of `SERVERS` (index.js:91), so
that header value is proxied to it rather than ignored. -/
theorem claim7_counterexample :
    getTargetURL servers0 (some ("constructor".data)) ("/raw".data)
      ≠ getTargetURL servers0 none ("/raw".data) ∧
    getTargetURL servers0 (some ("ssl_renegotiation".data)) ("/zzz".data)
      = some ("https://localhost:9091".data) := by decide

/-- Claim C7 as amended: a `target-server` value is ignored — classification
proceeds exactly as with no header — only when it is neither an own key of
`SERVERS` (the four fixtures plus `ssl_renegotiation`) nor a property name
inherited from `Object.prototype`; a value naming an inherited
`Object.prototype` property is not an error but is not ignored either: the
lookup is truthy with an undefined `url`, so classification returns no
target at all and the request echoes, bypassing the path heuristics. -/
theorem claim7_amended :
    (∀ (sv : Servers) (name url : JSStr), fixtureOfName name = none →
      name ∉ objectPrototypeProps →
      getTargetURL sv (some name) url = getTargetURL sv none url) ∧
    (∀ (sv : Servers) (name url : JSStr), name ∈ objectPrototypeProps →
      getTargetURL sv (some name) url = none) := by
  constructor
  · intro sv name url hunk hproto
    simp [getTargetURL, serversLookup, hunk, hproto]
  · intro sv name url hmem
    have hfix : fixtureOfName name = none := by
      simp only [objectPrototypeProps, List.mem_cons, List.not_mem_nil, or_false] at hmem
      rcases hmem with
        rfl | rfl | rfl | rfl | rfl | rfl | rfl | rfl | rfl | rfl | rfl | rfl <;> decide
    simp [getTargetURL, serversLookup, hfix, hmem]

/-- Witness for the amended C7: the unregistered non-prototype name `proxy`
is ignored, while `constructor` yields no target at all. -/
theorem claim7_amended_witness :
    getTargetURL servers0 (some ("proxy".data)) ("/raw".data)
      = getTargetURL servers0 none ("/raw".data) ∧
    getTargetURL servers0 (some ("constructor".data)) ("/raw".data) = none :=
  ⟨claim7_amended.1 servers0 ("proxy".data) ("/raw".data) (by decide) (by decide),
   claim7_amended.2 servers0 ("constructor".data) ("/raw".data) (by decide)⟩

/-- Claim C8: whenever classification produces no resolvable target —
either no heuristic matched, or the named fixture's URL is not bound —
the router answers the request itself with status 200, content type
`application/json`, and the JSON object `{url, method, headers}` of the
inbound request; it forwards nothing and never fails. -/
theorem claim8_default_echo :
    (∀ (sv : Servers) (req : Request),
      getTargetURL sv (headerGet req.headers ("target-server".data)) req.url = none →
      responseHandler sv req =
        RouterResult.echoed 200 ("application/json".data) req.url req.method req.headers) ∧
    (∀ (sv : Servers) (req : Request) (name : JSStr) (f : Fixture),
      headerGet req.headers ("target-server".data) = some name →
      fixtureOfName name = some f → fixtureURL sv f = none →
      responseHandler sv req =
        RouterResult.echoed 200 ("application/json".data) req.url req.method req.headers) := by
  constructor
  · intro sv req hnone
    unfold responseHandler
    rw [hnone]
  · intro sv req name f hhdr hname hurl
    have hnone : getTargetURL sv (headerGet req.headers ("target-server".data)) req.url
        = none := by
      rw [hhdr]
      simp [getTargetURL, serversLookup, hname, hurl]
    unfold responseHandler
    rw [hnone]

/-- Witness for C8: a default-classified request echoes, and a request
whose override names a fixture with an unbound URL echoes too. -/
theorem claim8_witness :
    responseHandler servers0 req1 =
      RouterResult.echoed 200 ("application/json".data) req1.url req1.method req1.headers ∧
    responseHandler svUnbound req2 =
      RouterResult.echoed 200 ("application/json".data) req2.url req2.method req2.headers :=
  ⟨claim8_default_echo.1 servers0 req1 (by decide),
   claim8_default_echo.2 svUnbound req2 ("raw".data) Fixture.raw
     (by decide) (by decide) (by decide)⟩

/-- Claim C9: `/bytes/1024` at the bytes fixture is a 200 response whose
body is exactly 1024 bytes. -/
theorem claim9_bytes_1024 :
    createBytesServer ("/bytes/1024".data) = ⟨200, 1024⟩ := by decide

/-- Claim C10: when the final path segment at the bytes fixture contains a
character that can occur in no numeric string — so `Number` of the segment
is `NaN` — the response is status 200 with a zero-length body. -/
theorem claim10_nan_zero (url : JSStr)
    (hbad : ∃ c ∈ (splitOn '/' url).getD ((splitOn '/' url).length - 1) [],
      jsNumericChar c = false) :
    createBytesServer url = ⟨200, 0⟩ := by
  obtain ⟨c, hmem, hc⟩ := hbad
  have hcdig : c.isDigit = false := by
    by_contra hb
    simp only [Bool.not_eq_false] at hb
    simp [jsNumericChar, hb] at hc
  have hne : (splitOn '/' url).getD ((splitOn '/' url).length - 1) [] ≠ [] := by
    intro h
    rw [h] at hmem
    simp at hmem
  have hnall : ¬ ((splitOn '/' url).getD ((splitOn '/' url).length - 1) []).all
      Char.isDigit = true := by
    intro hall
    have := List.all_eq_true.mp hall c hmem
    rw [hcdig] at this
    simp at this
  have hnum : jsNumber ((splitOn '/' url).getD ((splitOn '/' url).length - 1) []) = none := by
    unfold jsNumber
    rw [if_neg hne, if_neg hnall]
  have hbody : createBytesServer url
      = ⟨200, (jsNumber ((splitOn '/' url).getD ((splitOn '/' url).length - 1) [])).getD 0⟩ :=
    rfl
  rw [hbody, hnum]
  rfl

/-- Witness for C10 at `/bytes/hello`. -/
theorem claim10_witness :
    (∃ c ∈ (splitOn '/' ("/bytes/hello".data)).getD
        ((splitOn '/' ("/bytes/hello".data)).length - 1) [], jsNumericChar c = false) ∧
    createBytesServer ("/bytes/hello".data) = ⟨200, 0⟩ := by
  have hex : ∃ c ∈ (splitOn '/' ("/bytes/hello".data)).getD
      ((splitOn '/' ("/bytes/hello".data)).length - 1) [], jsNumericChar c = false :=
    ⟨'h', by decide, by decide⟩
  exact ⟨hex, claim10_nan_zero ("/bytes/hello".data) hex⟩

end TestServers
